import Mathlib

/-!
Verification of the symbolic-expression / units-of-measure program
(`src/num.rs`, `src/units.rs`, `src/main.rs`).

The Rust code is shallowly embedded: the recursive expression type
`SymbolicManip<T>` becomes an inductive type, the operator `impl`s become
`Mul`/`Add`/`Sub`/`Div` instances building `BinaryArith` nodes, the
`simplify` pass becomes a structural recursion whose guard chain mirrors
the Rust `match` with guards, the two renderers become structural
recursions into `String`, and the `Units<T>` wrapper's panicking `Add`
becomes an `Except` whose error carries both mismatched dimension
expressions (the payload of the Rust panic message).
-/

namespace SymExp

/-- The operators of `num.rs` (`enum Op`). -/
inductive Op where
  | Plus
  | Minus
  | Mul
  | Div
  | Pow
deriving DecidableEq

/-- Rendering of operators, from `impl fmt::Display for Op` in `num.rs`:
fixed tokens. -/
instance : ToString Op :=
  ⟨fun o => match o with
    | Op.Plus => "+"
    | Op.Minus => "-"
    | Op.Mul => "*"
    | Op.Div => "/"
    | Op.Pow => "**"⟩

/-- The core symbolic manipulation type of `num.rs` (`enum SymbolicManip<T>`):
a number (the spec's "Literal"), a symbol, a binary arithmetic node, or a
unary arithmetic node with an open-vocabulary name. -/
inductive SymbolicManip (T : Type) where
  | Number (x : T)
  | Symbol (s : String)
  | BinaryArith (op : Op) (a b : SymbolicManip T)
  | UnaryArith (name : String) (a : SymbolicManip T)
deriving DecidableEq

variable {T : Type}

/-- Construction from `impl ops::Add for SymbolicManip<T>`: build a `Plus` node. -/
instance : Add (SymbolicManip T) :=
  ⟨fun a b => SymbolicManip.BinaryArith Op.Plus a b⟩

/-- Construction from `impl ops::Sub for SymbolicManip<T>`: build a `Minus` node. -/
instance : Sub (SymbolicManip T) :=
  ⟨fun a b => SymbolicManip.BinaryArith Op.Minus a b⟩

/-- Construction from `impl ops::Mul for SymbolicManip<T>`: build a `Mul` node. -/
instance : Mul (SymbolicManip T) :=
  ⟨fun a b => SymbolicManip.BinaryArith Op.Mul a b⟩

/-- Construction from `impl ops::Div for SymbolicManip<T>`: build a `Div` node. -/
instance : Div (SymbolicManip T) :=
  ⟨fun a b => SymbolicManip.BinaryArith Op.Div a b⟩

/-- Lifting from `SymbolicManip::new` in `num.rs`: a payload value becomes a
`Number` node. -/
def SymbolicManip.new (x : T) : SymbolicManip T :=
  SymbolicManip.Number x

/-- The payload's `From<i32>` capability used by `simplify` and negation
(the `T: From<i32>` bound in `num.rs`). -/
class FromI32 (T : Type) where
  fromI32 : Int → T

instance : FromI32 Int := ⟨fun n => n⟩

/-- The local `one` of `simplify` in `num.rs`: `SymbolicManip::new(1i32.into())`. -/
def one (T : Type) [FromI32 T] : SymbolicManip T :=
  SymbolicManip.new (FromI32.fromI32 1)

/-- The local `zero` of `simplify` in `num.rs`: `SymbolicManip::new(0i32.into())`. -/
def zero (T : Type) [FromI32 T] : SymbolicManip T :=
  SymbolicManip.new (FromI32.fromI32 0)

/-- The pass `SymbolicManip::simplify` of `num.rs`: recurse into both children
of a binary node, then run the Rust `match op` guard chain (translated as the
corresponding if-chain, in source order) against `one` and `zero`; rebuild
unary nodes with a simplified operand; return leaves unchanged. -/
def simplify [DecidableEq T] [FromI32 T] : SymbolicManip T → SymbolicManip T
  | SymbolicManip.BinaryArith op origa origb =>
      let sa := simplify origa
      let sb := simplify origb
      if op = Op.Mul ∧ sa = one T then sb
      else if op = Op.Mul ∧ sb = one T then sa
      else if op = Op.Mul ∧ (sa = zero T ∨ sb = zero T) then zero T
      else if op = Op.Div ∧ sb = one T then sa
      else if op = Op.Plus ∧ sa = zero T then sb
      else if op = Op.Plus ∧ sb = zero T then sa
      else if op = Op.Minus ∧ sb = zero T then sa
      else SymbolicManip.BinaryArith op sa sb
  | SymbolicManip.UnaryArith name a => SymbolicManip.UnaryArith name (simplify a)
  | x => x

/-- Whether a node is a `BinaryArith` node: the discriminating test of
`simple_paren` in `num.rs`. -/
def SymbolicManip.isBinary : SymbolicManip T → Bool
  | SymbolicManip.BinaryArith _ _ _ => true
  | _ => false

/-- Infix rendering, `SymbolicManip::pretty_show` of `num.rs`.  A binary
node renders each operand through the parenthesize-if-binary policy of
`simple_paren` (inlined here so the recursion is structural); a unary node
renders as `name(operand)`; leaves render as their scalar text. -/
def pretty_show [ToString T] : SymbolicManip T → String
  | SymbolicManip.Number x => toString x
  | SymbolicManip.Symbol s => s
  | SymbolicManip.BinaryArith op a b =>
      (if a.isBinary then "(" ++ pretty_show a ++ ")" else pretty_show a)
        ++ toString op
        ++ (if b.isBinary then "(" ++ pretty_show b ++ ")" else pretty_show b)
  | SymbolicManip.UnaryArith name a => name ++ "(" ++ pretty_show a ++ ")"

/-- Helper `SymbolicManip::simple_paren` of `num.rs`: wrap the rendering of a
binary node in parentheses, render anything else bare. -/
def simple_paren [ToString T] (e : SymbolicManip T) : String :=
  if e.isBinary then "(" ++ pretty_show e ++ ")" else pretty_show e

/-- Postfix rendering, `SymbolicManip::to_rpn` of `num.rs`. -/
def to_rpn [ToString T] : SymbolicManip T → String
  | SymbolicManip.Number x => toString x
  | SymbolicManip.Symbol s => s
  | SymbolicManip.BinaryArith op a b =>
      to_rpn a ++ " " ++ to_rpn b ++ " " ++ toString op
  | SymbolicManip.UnaryArith name a => to_rpn a ++ " " ++ name

/-- The `Units<T>` struct of `units.rs`: a number and a dimension expression. -/
structure Units (T : Type) where
  number : T
  unit : SymbolicManip T
deriving DecidableEq

/-- Constructor `Units::new` of `units.rs`: the dimension is a bare `Symbol` node. -/
def Units.new (num : T) (u : String) : Units T :=
  Units.mk num (SymbolicManip.Symbol u)

/-- Negation from `impl ops::Neg for Units<T>`: negate the number, reuse the
dimension. -/
def Units.neg [Neg T] (u : Units T) : Units T :=
  Units.mk (-u.number) u.unit

/-- Addition from `impl ops::Add for Units<T>`: the Rust code panics when the
dimension expressions are structurally unequal
(`panic!("Mismatched units in add: ...")`); the panic is embedded as an
`Except.error` carrying both mismatched dimension expressions (the data named
by the panic message).  On matching dimensions the numbers are added and the
left operand's dimension is kept (`..self`). -/
def Units.add [Add T] [DecidableEq T] (u v : Units T) :
    Except (SymbolicManip T × SymbolicManip T) (Units T) :=
  if u.unit ≠ v.unit then Except.error (u.unit, v.unit)
  else Except.ok (Units.mk (u.number + v.number) u.unit)

/-- Subtraction from `impl ops::Sub for Units<T>`: `self + other.neg()`. -/
def Units.sub [Add T] [Neg T] [DecidableEq T] (u v : Units T) :
    Except (SymbolicManip T × SymbolicManip T) (Units T) :=
  Units.add u (Units.neg v)

/-- Multiplication from `impl ops::Mul for Units<T>`: multiply the numbers,
combine the dimensions with the `SymbolicManip` multiplication (a fresh `Mul`
node); no dimension check. -/
def Units.mul [Mul T] (u v : Units T) : Units T :=
  Units.mk (u.number * v.number) (u.unit * v.unit)

/-- Division from `impl ops::Div for Units<T>`: divide the numbers, combine
the dimensions with the `SymbolicManip` division (a fresh `Div` node); no
dimension check. -/
def Units.div [Div T] (u v : Units T) : Units T :=
  Units.mk (u.number / v.number) (u.unit / v.unit)

/-- Accessor `Units::drop_units` of `units.rs`. -/
def Units.drop_units (u : Units T) : T :=
  u.number

/-- The shortcut `c(num, unit)` of `main.rs`. -/
def c (num : T) (unit : String) : Units T :=
  Units.new num unit

/-- The expression `exp_b` of `main.rs`:
`(c(96.0,"m") + c(2.0,"m")) / c(10.0,"s")`.  The `f64` payload is embedded as
`ℚ` (every value involved is exactly representable and every operation here is
exact).  The fallible addition is sequenced in front of the (infallible)
division, as Rust's panic propagation does. -/
def exp_b : Except (SymbolicManip ℚ × SymbolicManip ℚ) (Units ℚ) :=
  (Units.add (c (96 : ℚ) "m") (c 2 "m")).map (fun s => Units.div s (c 10 "s"))

/-- The simplification pass as the specification words it (claim C1):
recursively simplify both children, then: Multiply with a child equal to one
returns the other simplified child; Multiply with either child equal to zero
returns `Literal(0)`; Divide with right child equal to one returns the
simplified left child; Add with a child equal to zero returns the other
simplified child; Subtract with right child equal to zero returns the
simplified left child; any other binary node is rebuilt under the same
operator tag; a unary node is rebuilt with unchanged name; leaves are
returned unchanged. -/
def simplifySpec [DecidableEq T] [FromI32 T] : SymbolicManip T → SymbolicManip T
  | SymbolicManip.BinaryArith op a b =>
      let sa := simplifySpec a
      let sb := simplifySpec b
      match op with
      | Op.Mul =>
          if sa = one T then sb
          else if sb = one T then sa
          else if sa = zero T ∨ sb = zero T then zero T
          else SymbolicManip.BinaryArith Op.Mul sa sb
      | Op.Div =>
          if sb = one T then sa else SymbolicManip.BinaryArith Op.Div sa sb
      | Op.Plus =>
          if sa = zero T then sb
          else if sb = zero T then sa
          else SymbolicManip.BinaryArith Op.Plus sa sb
      | Op.Minus =>
          if sb = zero T then sa else SymbolicManip.BinaryArith Op.Minus sa sb
      | Op.Pow => SymbolicManip.BinaryArith Op.Pow sa sb
  | SymbolicManip.UnaryArith name a => SymbolicManip.UnaryArith name (simplifySpec a)
  | SymbolicManip.Number x => SymbolicManip.Number x
  | SymbolicManip.Symbol s => SymbolicManip.Symbol s

/-- Claim C1: `simplify` first recursively simplifies both children of a
binary node, then applies exactly the claimed local rules using structural
equality against `Literal(1)` and `Literal(0)` obtained via the payload's
small-integer conversion; other binary nodes are rebuilt from the simplified
children, unary nodes keep their name over a simplified operand, and leaves
are returned unchanged.  Stated as: `simplify` coincides with the rule system
transcribed from the claim (`simplifySpec`). -/
theorem simplify_follows_spec_rules [DecidableEq T] [FromI32 T]
    (e : SymbolicManip T) : simplify e = simplifySpec e := by
  induction e with
  | Number x => rfl
  | Symbol s => rfl
  | UnaryArith name a ih => simp [simplify, simplifySpec, ih]
  | BinaryArith op a b iha ihb =>
    cases op <;> simp [simplify, simplifySpec, iha, ihb]

/-- Claim C2: adding two Units values with structurally unequal dimensions is
fatal (the embedded panic: an error naming both mismatched dimension
expressions, no recoverable result); with equal dimensions the numbers are
summed and the dimension kept unchanged; subtraction is add of the negated
right operand; negation negates the number and reuses the dimension. -/
theorem units_add_checks_dimensions {T : Type} [Add T] [Neg T] [DecidableEq T]
    (u v : Units T) :
    (u.unit ≠ v.unit → Units.add u v = Except.error (u.unit, v.unit)) ∧
    (u.unit = v.unit →
      Units.add u v = Except.ok (Units.mk (u.number + v.number) u.unit)) ∧
    Units.sub u v = Units.add u (Units.neg v) ∧
    Units.neg v = Units.mk (-v.number) v.unit := by
  refine ⟨fun hne => ?_, fun heq => ?_, rfl, rfl⟩
  · simp [Units.add, hne]
  · simp [Units.add, heq]

/-- Concrete instantiation of `units_add_checks_dimensions` at payload `Int`:
adding a metre value and a second value fails with both dimensions reported;
adding two metre values sums the numbers under the metre dimension. -/
theorem units_add_checks_dimensions_witness :
    Units.add (Units.new (1 : Int) "m") (Units.new 2 "s")
      = Except.error (SymbolicManip.Symbol "m", SymbolicManip.Symbol "s") ∧
    Units.add (Units.new (1 : Int) "m") (Units.new 2 "m")
      = Except.ok (Units.mk (1 + 2 : Int) (SymbolicManip.Symbol "m")) :=
  ⟨(units_add_checks_dimensions (Units.new (1 : Int) "m") (Units.new 2 "s")).1
      (by decide),
   (units_add_checks_dimensions (Units.new (1 : Int) "m") (Units.new 2 "m")).2.1
      rfl⟩

/-- Claim C3 is false on the code: one call to `simplify` on `(x*1)*1` already
yields the bare symbol `x`, not `x*1`, because the bottom-up pass simplifies
the inner product to `x` before the outer multiply-by-one rule is checked. -/
theorem one_pass_partial_reduction_refuted :
    ¬ (simplify ((SymbolicManip.Symbol "x" * SymbolicManip.Number (1 : Int))
          * SymbolicManip.Number 1)
        = SymbolicManip.Symbol "x" * SymbolicManip.Number (1 : Int)) := by
  decide

/-- Claim C3 amended: one call to `simplify` on `(x*1)*1` yields `x`; the
bottom-up pass hands the outer node already-simplified children, so the outer
multiply-by-one rule also fires and no re-invocation is needed. -/
theorem simplify_x_mul_one_mul_one_eq_x :
    simplify ((SymbolicManip.Symbol "x" * SymbolicManip.Number (1 : Int))
        * SymbolicManip.Number 1)
      = SymbolicManip.Symbol "x" := by
  decide

/-- Claim C4: the identity rewrite laws hold as structural equalities, for any
payload whose images of 1 and 0 differ: one times E, E times one, zero times
E, E over one, zero plus E, and E minus zero all simplify as claimed. -/
theorem identity_rewrite_laws [DecidableEq T] [FromI32 T]
    (h : (FromI32.fromI32 1 : T) ≠ FromI32.fromI32 0) (E : SymbolicManip T) :
    simplify (one T * E) = simplify E ∧
    simplify (E * one T) = simplify E ∧
    simplify (zero T * E) = zero T ∧
    simplify (E / one T) = simplify E ∧
    simplify (zero T + E) = simplify E ∧
    simplify (E - zero T) = simplify E := by
  refine ⟨?_, ?_, ?_, ?_, ?_, ?_⟩
  · show simplify (SymbolicManip.BinaryArith Op.Mul (one T) E) = simplify E
    simp [simplify, one, zero, SymbolicManip.new]
  · show simplify (SymbolicManip.BinaryArith Op.Mul E (one T)) = simplify E
    by_cases hE : simplify E = SymbolicManip.Number ((FromI32.fromI32 1 : T)) <;>
      simp [simplify, one, zero, SymbolicManip.new, hE]
  · show simplify (SymbolicManip.BinaryArith Op.Mul (zero T) E) = zero T
    have h' : (FromI32.fromI32 0 : T) ≠ FromI32.fromI32 1 := fun hc => h hc.symm
    by_cases hE : simplify E = SymbolicManip.Number ((FromI32.fromI32 1 : T)) <;>
      simp [simplify, one, zero, SymbolicManip.new, hE, h']
  · show simplify (SymbolicManip.BinaryArith Op.Div E (one T)) = simplify E
    simp [simplify, one, zero, SymbolicManip.new]
  · show simplify (SymbolicManip.BinaryArith Op.Plus (zero T) E) = simplify E
    simp [simplify, one, zero, SymbolicManip.new]
  · show simplify (SymbolicManip.BinaryArith Op.Minus E (zero T)) = simplify E
    simp [simplify, one, zero, SymbolicManip.new]

/-- Concrete instantiation of `identity_rewrite_laws` at payload `Int` with
the symbol `y`. -/
theorem identity_rewrite_laws_witness :
    ((FromI32.fromI32 1 : Int) ≠ FromI32.fromI32 0) ∧
    (simplify (one Int * SymbolicManip.Symbol "y")
        = simplify (SymbolicManip.Symbol "y") ∧
      simplify (SymbolicManip.Symbol "y" * one Int)
        = simplify (SymbolicManip.Symbol "y") ∧
      simplify (zero Int * SymbolicManip.Symbol "y") = zero Int ∧
      simplify (SymbolicManip.Symbol "y" / one Int)
        = simplify (SymbolicManip.Symbol "y") ∧
      simplify (zero Int + SymbolicManip.Symbol "y")
        = simplify (SymbolicManip.Symbol "y") ∧
      simplify (SymbolicManip.Symbol "y" - zero Int)
        = simplify (SymbolicManip.Symbol "y")) :=
  ⟨by decide, identity_rewrite_laws (by decide) (SymbolicManip.Symbol "y")⟩

/-- Claim C5: Units multiplication and division perform no dimension check and
never fail: the numbers are combined directly and the result dimension is a
fresh `Mul` (resp. `Div`) node over the two operand dimensions, not passed
through `simplify`; in particular dividing a metre value by a metre value
leaves a dimension that infix-renders as `m/m`, not a dimensionless unit. -/
theorem units_mul_div_no_dimension_check {T : Type} [Mul T] [Div T]
    (u v : Units T) :
    Units.mul u v
      = Units.mk (u.number * v.number)
          (SymbolicManip.BinaryArith Op.Mul u.unit v.unit) ∧
    Units.div u v
      = Units.mk (u.number / v.number)
          (SymbolicManip.BinaryArith Op.Div u.unit v.unit) ∧
    pretty_show ((Units.div (c (1 : Int) "m") (c 1 "m")).unit) = "m/m" :=
  ⟨rfl, rfl, rfl⟩

/-- Claim C6: infix rendering wraps every binary operand in parentheses
regardless of precedence, never wraps bare `Number`/`Symbol` operands, renders
a binary node as left-op-right through the parenthesize-if-binary helper and
a unary node as `name(operand)`; `(2+3)*4` and `2*3` render as claimed. -/
theorem infix_parenthesization {T : Type} [ToString T] (x : T) (s : String)
    (op : Op) (a b e : SymbolicManip T) (name : String) :
    simple_paren (SymbolicManip.BinaryArith op a b)
      = "(" ++ pretty_show (SymbolicManip.BinaryArith op a b) ++ ")" ∧
    simple_paren (SymbolicManip.Number x) = toString x ∧
    simple_paren (SymbolicManip.Symbol s : SymbolicManip T) = s ∧
    pretty_show (SymbolicManip.BinaryArith op a b)
      = simple_paren a ++ toString op ++ simple_paren b ∧
    pretty_show (SymbolicManip.UnaryArith name e)
      = name ++ "(" ++ pretty_show e ++ ")" ∧
    pretty_show ((SymbolicManip.Number (2 : Int) + SymbolicManip.Number 3)
        * SymbolicManip.Number 4) = "(2+3)*4" ∧
    pretty_show (SymbolicManip.Number (2 : Int) * SymbolicManip.Number 3)
      = "2*3" :=
  ⟨rfl, rfl, rfl, rfl, rfl, rfl, rfl⟩

/-- Claim C7: RPN rendering emits leaves as scalar text, a binary node as
left-rpn, right-rpn, operator token (the fixed tokens for the five operator
tags), and a unary node as operand-rpn then name; `2+3` RPN-renders as
`2 3 +` while infix-rendering as `2+3`. -/
theorem rpn_rendering {T : Type} [ToString T] (x : T) (s : String) (op : Op)
    (a b e : SymbolicManip T) (name : String) :
    to_rpn (SymbolicManip.Number x) = toString x ∧
    to_rpn (SymbolicManip.Symbol s : SymbolicManip T) = s ∧
    to_rpn (SymbolicManip.BinaryArith op a b)
      = to_rpn a ++ " " ++ to_rpn b ++ " " ++ toString op ∧
    to_rpn (SymbolicManip.UnaryArith name e) = to_rpn e ++ " " ++ name ∧
    toString Op.Plus = "+" ∧
    toString Op.Minus = "-" ∧
    toString Op.Mul = "*" ∧
    toString Op.Div = "/" ∧
    toString Op.Pow = "**" ∧
    to_rpn (SymbolicManip.Number (2 : Int) + SymbolicManip.Number 3)
      = "2 3 +" ∧
    pretty_show (SymbolicManip.Number (2 : Int) + SymbolicManip.Number 3)
      = "2+3" :=
  ⟨rfl, rfl, rfl, rfl, rfl, rfl, rfl, rfl, rfl, rfl, rfl⟩

/-- Claim C8: the end-to-end expression of `main.rs`,
`(c(96.0,"m") + c(2.0,"m")) / c(10.0,"s")`, succeeds and yields numeric value
9.8 with a dimension that infix-renders as `m/s`. -/
theorem exp_b_end_to_end :
    exp_b = Except.ok (Units.mk (9.8 : ℚ)
        (SymbolicManip.BinaryArith Op.Div (SymbolicManip.Symbol "m")
          (SymbolicManip.Symbol "s"))) ∧
    pretty_show (SymbolicManip.BinaryArith Op.Div
        (SymbolicManip.Symbol "m") (SymbolicManip.Symbol "s") : SymbolicManip ℚ)
      = "m/s" := by
  constructor
  · have h : ((96 : ℚ) + 2) / 10 = 9.8 := by norm_num
    rw [← h]
    rfl
  · rfl

/-- Claim C9: construction, simplification and both renderings are total over
every finite expression tree — each is a terminating structural recursion
that returns a value, with no failing branch. -/
theorem engine_operations_total [DecidableEq T] [FromI32 T] [ToString T]
    (e : SymbolicManip T) :
    ∃ r s t, simplify e = r ∧ pretty_show e = s ∧ to_rpn e = t :=
  ⟨_, _, _, rfl, rfl, rfl⟩

/-- Claim C10: `simplify` is unconditionally idempotent: the bottom-up pass
always returns subtrees on which every rewrite rule has already been checked
against fully simplified children, so a second pass changes nothing. -/
theorem simplify_idempotent [DecidableEq T] [FromI32 T] (e : SymbolicManip T) :
    simplify (simplify e) = simplify e := by
  induction e with
  | Number x => rfl
  | Symbol s => rfl
  | UnaryArith name a ih => simp [simplify, ih]
  | BinaryArith op a b iha ihb =>
    rw [show simplify (SymbolicManip.BinaryArith op a b)
          = (if op = Op.Mul ∧ simplify a = one T then simplify b
            else if op = Op.Mul ∧ simplify b = one T then simplify a
            else if op = Op.Mul ∧ (simplify a = zero T ∨ simplify b = zero T)
              then zero T
            else if op = Op.Div ∧ simplify b = one T then simplify a
            else if op = Op.Plus ∧ simplify a = zero T then simplify b
            else if op = Op.Plus ∧ simplify b = zero T then simplify a
            else if op = Op.Minus ∧ simplify b = zero T then simplify a
            else SymbolicManip.BinaryArith op (simplify a) (simplify b))
        from rfl]
    split_ifs with h1 h2 h3 h4 h5 h6 h7
    · exact ihb
    · exact iha
    · rfl
    · exact iha
    · exact ihb
    · exact iha
    · exact iha
    · rw [show simplify
              (SymbolicManip.BinaryArith op (simplify a) (simplify b))
            = (if op = Op.Mul ∧ simplify (simplify a) = one T
                then simplify (simplify b)
              else if op = Op.Mul ∧ simplify (simplify b) = one T
                then simplify (simplify a)
              else if op = Op.Mul ∧ (simplify (simplify a) = zero T
                  ∨ simplify (simplify b) = zero T) then zero T
              else if op = Op.Div ∧ simplify (simplify b) = one T
                then simplify (simplify a)
              else if op = Op.Plus ∧ simplify (simplify a) = zero T
                then simplify (simplify b)
              else if op = Op.Plus ∧ simplify (simplify b) = zero T
                then simplify (simplify a)
              else if op = Op.Minus ∧ simplify (simplify b) = zero T
                then simplify (simplify a)
              else SymbolicManip.BinaryArith op (simplify (simplify a))
                (simplify (simplify b)))
          from rfl]
      rw [iha, ihb]
      rw [if_neg h1, if_neg h2, if_neg h3, if_neg h4, if_neg h5, if_neg h6,
        if_neg h7]

end SymExp
